import Mathlib

/-!
Verification of the alert-to-order translation core of a TradingView → Kraken
webhook service (source: src/webhook.py).

The Python code is shallowly embedded:
- Python str values are lists of character codepoints (List Nat); str.upper,
  str.lower, str.strip, str.split and str.replace are modelled for the ASCII
  range, which covers every string this service manipulates.
- Python float values are exact rationals together with an explicit binary64
  round-to-nearest-even function fl64 (normal range only; no subnormal or
  overflow handling is needed for the magnitudes this service sees).
  decimal.Decimal values are exact rationals.
- Exceptions are modelled with Option / Except; the two exchange calls the
  handler can issue (public Ticker query, private AddOrder) are returned as an
  explicit call list.
All definitions are executable, so concrete runs are settled by kernel
reduction (decide / rfl).
-/

set_option maxRecDepth 100000

/-- Exact rational numbers with a positive denominator, used to model Python
float and Decimal values exactly.  Kept unnormalized so that every operation
is plain integer arithmetic that the kernel reduces. -/
structure Frac where
  num : Int
  den : Int
  den_pos : 0 < den

/-- Build a fraction from a numerator and denominator, normalizing the sign of
the denominator.  A zero denominator never arises in the model (Python raises
ZeroDivisionError first, which the handler model checks explicitly). -/
def mkFrac (n d : Int) : Frac :=
  if h : 0 < d then ⟨n, d, h⟩
  else if h2 : d < 0 then ⟨-n, -d, by omega⟩
  else ⟨0, 1, by omega⟩

def Frac.ofInt (n : Int) : Frac := ⟨n, 1, by omega⟩

def Frac.mul (x y : Frac) : Frac :=
  ⟨x.num * y.num, x.den * y.den, mul_pos x.den_pos y.den_pos⟩

/-- Python float division x / y (exact value; the binary64 rounding of the
quotient is applied separately by fl64). -/
def Frac.divF (x y : Frac) : Frac := mkFrac (x.num * y.den) (x.den * y.num)

def Frac.sub (x y : Frac) : Frac :=
  ⟨x.num * y.den - y.num * x.den, x.den * y.den, mul_pos x.den_pos y.den_pos⟩

def Frac.neg (x : Frac) : Frac := ⟨-x.num, x.den, x.den_pos⟩

/-- Value ordering by cross multiplication (denominators are positive). -/
def Frac.le (x y : Frac) : Prop := x.num * y.den ≤ y.num * x.den

def Frac.lt (x y : Frac) : Prop := x.num * y.den < y.num * x.den

/-- Value equality by cross multiplication. -/
def Frac.eq (x y : Frac) : Prop := x.num * y.den = y.num * x.den

/-- Boolean value equality, for statements settled by evaluation. -/
def Frac.beq (x y : Frac) : Bool := x.num * y.den == y.num * x.den

instance (x y : Frac) : Decidable (Frac.le x y) := by unfold Frac.le; infer_instance
instance (x y : Frac) : Decidable (Frac.lt x y) := by unfold Frac.lt; infer_instance
instance (x y : Frac) : Decidable (Frac.eq x y) := by unfold Frac.eq; infer_instance

/-- Floor of a fraction (denominator positive, so floor division is exact). -/
def Frac.floorF (x : Frac) : Int := Int.fdiv x.num x.den

/-- Integer part of a fraction, truncated toward zero.  This is exactly the
rounding used by Decimal.quantize with ROUND_DOWN. -/
def Frac.truncZ (x : Frac) : Int := Int.tdiv x.num x.den

/-- Decimal.quantize(Decimal(0.00000001), rounding=ROUND_DOWN): truncate
toward zero to 8 fractional digits (webhook.py lines 96 and 146). -/
def trunc8 (x : Frac) : Frac :=
  ⟨Int.tdiv (x.num * 100000000) x.den, 100000000, by omega⟩

/-- Fuel-driven floor of log2 (structural recursion so the kernel reduces it). -/
def log2Aux : Nat → Nat → Nat
  | 0, _ => 0
  | fuel + 1, n => if 2 ≤ n then log2Aux fuel (n / 2) + 1 else 0

def natLog2 (n : Nat) : Nat := log2Aux n n

/-- Two to an integer power, as a fraction. -/
def pow2F (e : Int) : Frac :=
  if 0 ≤ e then ⟨2 ^ e.toNat, 1, by omega⟩
  else ⟨1, 2 ^ (-e).toNat, by positivity⟩

/-- Round a nonnegative fraction to the nearest integer, ties to even. -/
def rne (r : Frac) : Int :=
  let f := r.floorF
  let fr := r.sub (Frac.ofInt f)
  if Frac.lt fr ⟨1, 2, by omega⟩ then f
  else if Frac.lt ⟨1, 2, by omega⟩ fr then f + 1
  else if f % 2 = 0 then f else f + 1

/-- Binary64 (IEEE 754 double) rounding to nearest, ties to even, of an exact
rational.  Valid for the normal range, which covers every value this service
computes.  Python float arithmetic is correctly rounded, so a Python float
operation is modelled as fl64 applied to the exact result. -/
def fl64 (x : Frac) : Frac :=
  if x.num = 0 then Frac.ofInt 0
  else
    let m : Frac := ⟨x.num.natAbs, x.den, x.den_pos⟩
    let e0 : Int := (natLog2 x.num.natAbs : Int) - (natLog2 x.den.toNat : Int)
    let e : Int := if Frac.le (pow2F e0) m then e0 else e0 - 1
    let n : Int := rne (m.mul (pow2F (52 - e)))
    let mag : Frac := (Frac.ofInt n).mul (pow2F (e - 52))
    if x.num < 0 then mag.neg else mag

/-- A Python string as its list of character codepoints. -/
def pyStr (s : String) : List Nat := s.data.map Char.toNat

/-- ASCII whitespace, as recognized by str.strip. -/
def isSpaceChar (c : Nat) : Bool :=
  c == 32 || c == 9 || c == 10 || c == 13 || c == 11 || c == 12

/-- str.strip(): drop whitespace from both ends. -/
def stripStr (s : List Nat) : List Nat :=
  ((s.dropWhile isSpaceChar).reverse.dropWhile isSpaceChar).reverse

/-- str.lower() on one ASCII character. -/
def lowerChar (c : Nat) : Nat := if 65 ≤ c ∧ c ≤ 90 then c + 32 else c

/-- str.upper() on one ASCII character. -/
def upperChar (c : Nat) : Nat := if 97 ≤ c ∧ c ≤ 122 then c - 32 else c

def lowerStr (s : List Nat) : List Nat := s.map lowerChar

def upperStr (s : List Nat) : List Nat := s.map upperChar

def isDigitChar (c : Nat) : Bool := decide (48 ≤ c) && decide (c ≤ 57)

/-- Numeric value of a digit string. -/
def digitsVal (l : List Nat) : Nat := l.foldl (fun a c => a * 10 + (c - 48)) 0

/-- Ten to an integer power, as a fraction (for float exponent suffixes). -/
def pow10F (e : Int) : Frac :=
  if 0 ≤ e then ⟨10 ^ e.toNat, 1, by positivity⟩
  else ⟨1, 10 ^ (-e).toNat, by positivity⟩

/-- Exponent suffix of a float literal: optional sign then at least one digit. -/
def expShift (base : Frac) (r : List Nat) : Option Frac :=
  let sr : Int × List Nat :=
    match r with
    | 43 :: t => (1, t)
    | 45 :: t => (-1, t)
    | _ => (1, r)
  let ds := sr.2.takeWhile isDigitChar
  if ds.isEmpty || !(sr.2.dropWhile isDigitChar).isEmpty then none
  else some (base.mul (pow10F (sr.1 * (digitsVal ds : Int))))

/-- Unsigned part of a Python float literal: digits with an optional single
point (at least one digit overall) and an optional exponent suffix. -/
def pyDecUnsigned (s : List Nat) : Option Frac :=
  let intPart := s.takeWhile isDigitChar
  let rest1 := s.dropWhile isDigitChar
  let fracSplit : List Nat × List Nat :=
    match rest1 with
    | 46 :: r => (r.takeWhile isDigitChar, r.dropWhile isDigitChar)
    | _ => ([], rest1)
  if intPart.isEmpty && fracSplit.1.isEmpty then none
  else
    let base : Frac :=
      ⟨(digitsVal intPart : Int) * 10 ^ fracSplit.1.length + (digitsVal fracSplit.1 : Int),
       10 ^ fracSplit.1.length, by positivity⟩
    match fracSplit.2 with
    | [] => some base
    | 101 :: r => expShift base r
    | 69 :: r => expShift base r
    | _ => none

/-- The Python float() builtin on a string: strip whitespace, parse a finite
decimal literal, round the exact value to binary64.  (The inf and nan
literals and underscore digit separators are outside this model; no claim
below depends on them.) -/
def pyFloatOfStr (s : List Nat) : Option Frac :=
  match stripStr s with
  | 43 :: r => (pyDecUnsigned r).map (fun q => fl64 q)
  | 45 :: r => (pyDecUnsigned r).map (fun q => fl64 q.neg)
  | t => (pyDecUnsigned t).map (fun q => fl64 q)

instance : DecidableEq Frac := fun x y =>
  decidable_of_iff (x.num = y.num ∧ x.den = y.den) (by cases x; cases y; simp)

/-- A JSON scalar as the handler sees it: a string or a number.  JSON numbers
have already been parsed to binary64 floats when the handler receives them. -/
inductive PyVal where
  | str (s : List Nat)
  | num (q : Frac)
deriving DecidableEq

/-- Python truthiness for the two value shapes. -/
def PyVal.truthy : PyVal → Bool
  | .str s => !s.isEmpty
  | .num q => !(q.num == 0)

/-- The keys of a structured webhook payload that parse_message consults.
A JSON null value behaves like an absent key everywhere in this code
(both are falsy and both fail the "is not None" test only when absent),
so null is modelled as absence. -/
structure PyDict where
  message : Option PyVal
  symbol : Option PyVal
  ticker : Option PyVal
  pair : Option PyVal
  action : Option PyVal
  amount : Option PyVal
deriving DecidableEq

def mkDict (message symbol ticker pair action amount : Option PyVal) : PyDict :=
  ⟨message, symbol, ticker, pair, action, amount⟩

/-- An inbound payload: a parsed JSON object, a raw text body, or anything
else (for which parse_message returns None). -/
inductive Payload where
  | dict (d : PyDict)
  | text (s : List Nat)
  | other
deriving DecidableEq

/-- The parsed trade intent returned by parse_message: the dict
with keys symbol, action, amount built at lines 47 and 75 of webhook.py.
The symbol is returned exactly as supplied (a string in the delimited shape;
any truthy value in the structured shape). -/
structure TradeIntent where
  symbol : PyVal
  action : List Nat
  amount : Frac
deriving DecidableEq

/-- The Python or operator on optional values: first truthy operand, else the
second operand. -/
def orPy (a b : Option PyVal) : Option PyVal :=
  match a with
  | some v => if v.truthy then some v else b
  | none => b

/-- float(x) for a value that is already a number or still a string. -/
def pyFloatOfVal : PyVal → Option Frac
  | .num q => some q
  | .str s => pyFloatOfStr s

/-- The structured branch of parse_message (webhook.py lines 43-48): read the
symbol from symbol, ticker or pair (first truthy), require action truthy and
amount present, lowercase the action, convert the amount with float().  An
exception from a non-string action or a non-numeric amount is caught by the
surrounding try and yields None. -/
def directFields (d : PyDict) : Option TradeIntent :=
  match orPy d.symbol (orPy d.ticker d.pair), d.action, d.amount with
  | some sv, some av, some amtv =>
    if sv.truthy && av.truthy then
      match av with
      | .str as =>
        match pyFloatOfVal amtv with
        | some q => some ⟨sv, lowerStr as, q⟩
        | none => none
      | .num _ => none
    else none
  | _, _, _ => none

/-- str.split(sep, 1): split at the first occurrence of sep, or None when the
separator does not occur. -/
def splitFirst (c : Nat) : List Nat → Option (List Nat × List Nat)
  | [] => none
  | x :: xs =>
    if x == c then some ([], xs)
    else
      match splitFirst c xs with
      | some kv => some (x :: kv.1, kv.2)
      | none => none

/-- Build the key-value dict of the delimited format (webhook.py lines 60-64):
for each part containing a colon, map the stripped lowercased key to the
stripped value.  Later parts overwrite earlier ones, as in a Python dict. -/
def buildData (parts : List (List Nat)) : List (List Nat × List Nat) :=
  parts.foldl (fun acc part =>
    match splitFirst 58 part with
    | some kv => acc ++ [(lowerStr (stripStr kv.1), stripStr kv.2)]
    | none => acc) []

/-- dict.get with Python overwrite semantics: the last binding of a key wins. -/
def dGet (data : List (List Nat × List Nat)) (k : List Nat) : Option (List Nat) :=
  List.lookup k data.reverse

/-- The Python or operator on optional strings. -/
def orStr (a b : Option (List Nat)) : Option (List Nat) :=
  match a with
  | some s => if !s.isEmpty then some s else b
  | none => b

/-- The delimited-text branch of parse_message (webhook.py lines 59-75): split
on semicolons, strip, drop empty parts, split each part at its first colon,
then read symbol (from key symbol or pair), action and amount; all three must
be truthy and the amount must survive float(). -/
def parseDelim (msg : List Nat) : Option TradeIntent :=
  let parts := ((msg.splitOn 59).map stripStr).filter (fun p => !p.isEmpty)
  let data := buildData parts
  match orStr (dGet data (pyStr "symbol")) (dGet data (pyStr "pair")),
        dGet data (pyStr "action"), dGet data (pyStr "amount") with
  | some sy, some ac, some am =>
    if !sy.isEmpty && !ac.isEmpty && !am.isEmpty then
      match pyFloatOfStr am with
      | some q => some ⟨.str sy, lowerStr ac, q⟩
      | none => none
    else none
  | _, _, _ => none

/-- parse_message (webhook.py lines 30-75).  A dict payload whose message
field holds a truthy string is handed to the delimited parser (the direct
fields are then never consulted); any other dict is read through its direct
fields; a raw string body is handed to the delimited parser unless empty;
any other payload fails. -/
def parse_message : Payload → Option TradeIntent
  | .dict d =>
    match d.message with
    | some (.str m) => if !m.isEmpty then parseDelim m else directFields d
    | some (.num _) => directFields d
    | none => directFields d
  | .text s => if s.isEmpty then none else parseDelim s
  | .other => none

/-- The DEFAULT_PAIR environment fallback, with its default value. -/
def DEFAULT_PAIR : List Nat := pyStr "XBTUSD"

/-- The separators stripped by normalize_pair: hyphen, underscore, slash. -/
def isSepChar (c : Nat) : Bool := c == 45 || c == 95 || c == 47

/-- str.replace of BTC by XBT: left to right, non overlapping. -/
def replaceBTC : List Nat → List Nat
  | 66 :: 84 :: 67 :: rest => 88 :: 66 :: 84 :: replaceBTC rest
  | c :: rest => c :: replaceBTC rest
  | [] => []

/-- Whether the string contains BTC as a substring. -/
def hasBTC : List Nat → Bool
  | 66 :: 84 :: 67 :: _ => true
  | _ :: rest => hasBTC rest
  | [] => false

/-- normalize_pair (webhook.py lines 22-28): empty input falls back to
DEFAULT_PAIR; otherwise uppercase, strip the three separators, replace BTC
by XBT. -/
def normalize_pair (symbol : List Nat) : List Nat :=
  if symbol.isEmpty then DEFAULT_PAIR
  else replaceBTC ((upperStr symbol).filter (fun c => !isSepChar c))

/-- normalize_pair applied to the symbol stored in a TradeIntent.  The
structured shape can store a non-string symbol, on which symbol.upper()
raises AttributeError; the webhook handler does not catch that exception. -/
def normalizeVal : PyVal → Option (List Nat)
  | .str s => some (normalize_pair s)
  | .num _ => none

/-- One entry of the result object of the Kraken public Ticker endpoint; the
field c holds the last-trade data, c[0] the last trade price as a string. -/
structure TickerEntry where
  c : List (List Nat)
deriving DecidableEq

/-- The response of the Kraken public Ticker endpoint: an error array and a
result object, modelled as an association list in key order. -/
structure TickerResponse where
  error : List (List Nat)
  result : List (List Nat × TickerEntry)
deriving DecidableEq

/-- The ways get_last_price can raise (all are caught by the webhook handler
and reported as price_fetch_failed; the detail strings are abstracted). -/
inductive PriceErr where
  | transport
  | apiError (errs : List (List Nat))
  | noResult
  | noLast
  | notNumeric (s : List Nat)
deriving DecidableEq

/-- get_last_price (webhook.py lines 77-87).  The argument is the outcome of
the network call: none when the request itself raised, some resp otherwise.
The function raises on an exchange error payload, an absent or empty result
set, a result entry without last-trade data, or a non-numeric price; else it
returns float of the first result entry of c[0]. -/
def get_last_price (resp : Option TickerResponse) : Except PriceErr Frac :=
  match resp with
  | none => Except.error PriceErr.transport
  | some res =>
    if !res.error.isEmpty then Except.error (PriceErr.apiError res.error)
    else
      match res.result with
      | [] => Except.error PriceErr.noResult
      | (_, entry) :: _ =>
        match entry.c with
        | [] => Except.error PriceErr.noLast
        | last :: _ =>
          match pyFloatOfStr last with
          | some q => Except.ok q
          | none => Except.error (PriceErr.notNumeric last)

/-- The parameter object of a Kraken AddOrder request (webhook.py lines
97-102).  The volume field holds the exact decimal value of the vol_str
string: volume truncated toward zero to 8 fractional digits. -/
structure OrderParams where
  pair : List Nat
  type : List Nat
  ordertype : List Nat
  volume : Frac
deriving DecidableEq

/-- place_market_order (webhook.py lines 89-104), up to the request it sends:
any action other than buy is submitted as sell, the order type is market, and
the volume is quantized with ROUND_DOWN to 8 fractional digits. -/
def place_market_order (pair action : List Nat) (volume : Frac) : OrderParams :=
  ⟨pair,
   if action == pyStr "buy" then pyStr "buy" else pyStr "sell",
   pyStr "market",
   trunc8 volume⟩

/-- The response of the Kraken private AddOrder endpoint.  place_market_order
returns it verbatim without inspecting it. -/
structure AddOrderResponse where
  error : List (List Nat)
  txid : List (List Nat)
deriving DecidableEq

/-- The exchange calls the handler can issue, in order. -/
inductive ExchangeCall where
  | tickerQuery (pair : List Nat)
  | addOrder (params : OrderParams)
deriving DecidableEq

def ExchangeCall.isOrder : ExchangeCall → Bool
  | .tickerQuery _ => false
  | .addOrder _ => true

/-- The volumes of the AddOrder calls in a call list. -/
def orderVolumes (calls : List ExchangeCall) : List Frac :=
  calls.filterMap (fun c =>
    match c with
    | .addOrder ps => some ps.volume
    | _ => none)

/-- The JSON bodies the webhook route can answer with.  pyException stands
for an exception escaping the handler (Flask then produces a generic 500
Internal Server Error). -/
inductive RespBody where
  | unauthorized
  | invalidPayload
  | priceFetchFailed (e : PriceErr)
  | orderFailed (e : List Nat)
  | success (r : AddOrderResponse)
  | pyException
  | ignoredRateLimited (waitSeconds : Frac)
deriving DecidableEq

structure HttpResponse where
  status : Nat
  body : RespBody
deriving DecidableEq

/-- The deployment configuration the handler reads: WEBHOOK_TOKEN.  An unset
or empty token is falsy in Python, so both are modelled as none. -/
structure Config where
  webhookToken : Option (List Nat)
deriving DecidableEq

/-- The expected Authorization header value for a configured token. -/
def bearerLine (tok : List Nat) : List Nat := pyStr "Bearer " ++ tok

/-- The bearer check of webhook.py lines 112-118: with a configured token the
header must equal Bearer token exactly; with no token the check is skipped. -/
def authPasses (cfg : Config) (authHeader : List Nat) : Bool :=
  match cfg.webhookToken with
  | some tok => authHeader == bearerLine tok
  | none => true

/-- The webhook handler after the authorization gate (webhook.py lines
120-156): parse, normalize, fetch the price, convert the notional amount to a
base volume with binary64 division then an 8-digit ROUND_DOWN quantize and a
conversion back to float (lines 145-146), and submit the market order.  The
outcomes of the two network interactions are passed in; the call list records
which exchange calls were issued. -/
def webhookAfterAuth (payload : Payload) (tickerResp : Option TickerResponse)
    (orderResp : Except (List Nat) AddOrderResponse) :
    HttpResponse × List ExchangeCall :=
  match parse_message payload with
  | none => (⟨400, RespBody.invalidPayload⟩, [])
  | some intent =>
    match normalizeVal intent.symbol with
    | none => (⟨500, RespBody.pyException⟩, [])
    | some pair =>
      match get_last_price tickerResp with
      | Except.error e => (⟨500, RespBody.priceFetchFailed e⟩, [ExchangeCall.tickerQuery pair])
      | Except.ok price =>
        if price.num = 0 then
          (⟨500, RespBody.pyException⟩, [ExchangeCall.tickerQuery pair])
        else
          let volume := fl64 (trunc8 (fl64 (intent.amount.divF price)))
          let params := place_market_order pair intent.action volume
          match orderResp with
          | Except.error e =>
            (⟨500, RespBody.orderFailed e⟩,
             [ExchangeCall.tickerQuery pair, ExchangeCall.addOrder params])
          | Except.ok r =>
            (⟨200, RespBody.success r⟩,
             [ExchangeCall.tickerQuery pair, ExchangeCall.addOrder params])

/-- The webhook route handler (webhook.py lines 110-156). -/
def webhook (cfg : Config) (authHeader : List Nat) (payload : Payload)
    (tickerResp : Option TickerResponse)
    (orderResp : Except (List Nat) AddOrderResponse) :
    HttpResponse × List ExchangeCall :=
  if authPasses cfg authHeader then webhookAfterAuth payload tickerResp orderResp
  else (⟨401, RespBody.unauthorized⟩, [])

/-- Modelled from the spec: the optional global rate limiter of sections 5 and
6 of the specification, which src/webhook.py does not contain (it exists only
in repository variants not included under src/).  It keeps the timestamp of
the last accepted request; a request arriving strictly within the cooldown
window is acknowledged with HTTP 200, status ignored, reason rate_limited and
the remaining wait, no exchange call is made and the timestamp is kept;
otherwise the request is handled normally and the timestamp is updated. -/
def rateLimitedWebhook (cooldownSeconds lastAccepted now : Frac) (cfg : Config)
    (authHeader : List Nat) (payload : Payload)
    (tickerResp : Option TickerResponse)
    (orderResp : Except (List Nat) AddOrderResponse) :
    (HttpResponse × List ExchangeCall) × Frac :=
  if Frac.lt (now.sub lastAccepted) cooldownSeconds then
    ((⟨200, RespBody.ignoredRateLimited (cooldownSeconds.sub (now.sub lastAccepted))⟩, []),
     lastAccepted)
  else
    (webhook cfg authHeader payload tickerResp orderResp, now)

-- sanity checks for the arithmetic core
example : Frac.eq (fl64 (Frac.divF (Frac.ofInt 10) (Frac.ofInt 3)))
    ⟨7505999378950827, 2251799813685248, by omega⟩ := by decide
example : Frac.eq (trunc8 (fl64 (Frac.divF (Frac.ofInt 10) (Frac.ofInt 3))))
    ⟨333333333, 100000000, by omega⟩ := by decide
example : Frac.eq (fl64 ⟨333333333, 100000000, by omega⟩)
    ⟨7505999371444827, 2251799813685248, by omega⟩ := by decide
example : natLog2 7505999378950827 = 52 := by decide
example : stripStr (pyStr "  BTC-USD  ") = pyStr "BTC-USD" := by decide

-- sanity checks for the parsing and normalization layer
example : (parse_message (.text (pyStr "symbol: BTC-USD; action: Buy; amount: 10.0"))).map
    (fun t => (t.symbol, t.action, Frac.beq t.amount (Frac.ofInt 10)))
    = some (.str (pyStr "BTC-USD"), pyStr "buy", true) := by decide
example : parse_message (.text (pyStr "symbol: BTC-USD; action: buy")) = none := by decide
example : normalize_pair (pyStr "BTC-USD") = pyStr "XBTUSD" := by decide
example : normalize_pair (pyStr "btc_usd") = pyStr "XBTUSD" := by decide
example : normalize_pair (pyStr "BTC/USD") = pyStr "XBTUSD" := by decide
example : replaceBTC (pyStr "BBTCC") = pyStr "BXBTC" := by decide
example : (pyFloatOfStr (pyStr "2.5e2")).map (fun q => Frac.beq q (Frac.ofInt 250))
    = some true := by decide

-- sanity check: the end-to-end example of the specification, message
-- symbol: BTC-USD; action: buy; amount: 100 with price 50000 submits a
-- market buy of 0.00200000 XBTUSD
example :
    (webhook ⟨none⟩ [] (.text (pyStr "symbol: BTC-USD; action: buy; amount: 100"))
      (some ⟨[], [(pyStr "XXBTZUSD", ⟨[pyStr "50000.0"]⟩)]⟩)
      (Except.ok ⟨[], [pyStr "TXID1"]⟩)).1.status = 200 := by decide
example :
    (orderVolumes (webhook ⟨none⟩ [] (.text (pyStr "symbol: BTC-USD; action: buy; amount: 100"))
      (some ⟨[], [(pyStr "XXBTZUSD", ⟨[pyStr "50000.0"]⟩)]⟩)
      (Except.ok ⟨[], [pyStr "TXID1"]⟩)).2).map (fun v => Frac.beq v ⟨200000, 100000000, by omega⟩)
    = [true] := by decide

theorem replaceBTC_cons (c : Nat) (rest : List Nat)
    (h : ∀ r2, c = 66 → rest = 84 :: 67 :: r2 → False) :
    replaceBTC (c :: rest) = c :: replaceBTC rest := by
  rw [replaceBTC.eq_def]
  split
  · rename_i r2 heq
    injection heq with h1 h2
    exact (h r2 h1 h2).elim
  · rename_i c2 r2 heq
    injection heq with h1 h2
    subst h1; subst h2; rfl
  · rename_i heq
    exact absurd heq (by simp)

theorem hasBTC_cons (c : Nat) (rest : List Nat)
    (h : ∀ r2, c = 66 → rest = 84 :: 67 :: r2 → False) :
    hasBTC (c :: rest) = hasBTC rest := by
  rw [hasBTC.eq_def]
  split
  · rename_i r2 heq
    injection heq with h1 h2
    exact (h r2 h1 h2).elim
  · rename_i c2 r2 heq
    injection heq with h1 h2
    subst h1; subst h2; rfl
  · rename_i heq
    exact absurd heq (by simp)

/-- If the string does not contain BTC, the replacement leaves it unchanged. -/
theorem replaceBTC_of_not_hasBTC : ∀ (l : List Nat), hasBTC l = false → replaceBTC l = l := by
  intro l
  induction l using replaceBTC.induct with
  | case1 rest ih =>
    intro h
    simp [hasBTC] at h
  | case2 c rest side ih =>
    intro h
    rw [hasBTC_cons c rest side] at h
    rw [replaceBTC_cons c rest side, ih h]
  | case3 =>
    intro _
    rfl

/-- Every character of the replacement output either occurs in the input or is
one of X, B, T. -/
theorem replaceBTC_chars (P : Nat → Prop) (h88 : P 88) (h66 : P 66) (h84 : P 84) :
    ∀ (l : List Nat), (∀ c ∈ l, P c) → ∀ c ∈ replaceBTC l, P c := by
  intro l
  induction l using replaceBTC.induct with
  | case1 rest ih =>
    intro hl c hc
    rw [replaceBTC.eq_1] at hc
    simp only [List.mem_cons] at hc
    rcases hc with rfl | rfl | rfl | hc
    · exact h88
    · exact h66
    · exact h84
    · exact ih (fun d hd => hl d (by simp [hd])) c hc
  | case2 a rest side ih =>
    intro hl c hc
    rw [replaceBTC_cons a rest side] at hc
    simp only [List.mem_cons] at hc
    rcases hc with rfl | hc
    · exact hl c (by simp)
    · exact ih (fun d hd => hl d (by simp [hd])) c hc
  | case3 =>
    intro _ c hc
    simp [replaceBTC] at hc

theorem upperChar_idem (c : Nat) : upperChar (upperChar c) = upperChar c := by
  unfold upperChar
  split_ifs <;> omega

theorem map_id_of_mem {f : Nat → Nat} : ∀ (l : List Nat), (∀ c ∈ l, f c = c) → l.map f = l := by
  intro l h
  induction l with
  | nil => rfl
  | cons a t ih =>
    simp only [List.map_cons, h a (by simp)]
    rw [ih (fun c hc => h c (by simp [hc]))]

theorem filter_id_of_mem {p : Nat → Bool} : ∀ (l : List Nat), (∀ c ∈ l, p c = true) → l.filter p = l := by
  intro l h
  induction l with
  | nil => rfl
  | cons a t ih =>
    rw [List.filter_cons_of_pos (h a (by simp)), ih (fun c hc => h c (by simp [hc]))]

/-- Every character of a normalized nonempty symbol is upperChar-fixed and is
not a separator. -/
theorem normalize_pair_chars (x : List Nat) (hx : x.isEmpty = false) :
    ∀ c ∈ normalize_pair x, upperChar c = c ∧ (!isSepChar c) = true := by
  unfold normalize_pair
  rw [hx]
  simp only [Bool.false_eq_true, if_false]
  apply replaceBTC_chars
  · exact ⟨by decide, by decide⟩
  · exact ⟨by decide, by decide⟩
  · exact ⟨by decide, by decide⟩
  · intro c hc
    have hmem := List.mem_filter.mp hc
    constructor
    · obtain ⟨a, _, rfl⟩ := List.mem_map.mp hmem.1
      exact upperChar_idem a
    · exact hmem.2

/-- Conditional idempotency of the normalizer: a second pass is the identity
whenever the first pass yields a nonempty string not containing BTC. -/
theorem normalize_pair_idem (x : List Nat) (hne : normalize_pair x ≠ [])
    (hb : hasBTC (normalize_pair x) = false) :
    normalize_pair (normalize_pair x) = normalize_pair x := by
  by_cases hx : x.isEmpty
  · have hdef : normalize_pair x = DEFAULT_PAIR := by
      unfold normalize_pair; rw [hx]; rfl
    rw [hdef]
    decide
  · have hchars := normalize_pair_chars x (by simp [hx])
    have hne2 : (normalize_pair x).isEmpty = false := by
      cases h : normalize_pair x with
      | nil => exact absurd h hne
      | cons a t => rfl
    conv_lhs => rw [normalize_pair.eq_def]
    rw [hne2]
    simp only [Bool.false_eq_true, if_false]
    rw [show upperStr (normalize_pair x) = normalize_pair x from
      map_id_of_mem (normalize_pair x) (fun c hc => (hchars c hc).1)]
    rw [filter_id_of_mem (normalize_pair x) (fun c hc => (hchars c hc).2)]
    exact replaceBTC_of_not_hasBTC _ hb

/-- The 8-digit ROUND_DOWN quantize never exceeds a nonnegative input. -/
theorem trunc8_le (x : Frac) (h : 0 ≤ x.num) : Frac.le (trunc8 x) x := by
  unfold Frac.le trunc8
  simp only
  rw [Int.tdiv_eq_ediv (by positivity) (le_of_lt x.den_pos)]
  exact Int.ediv_mul_le _ (ne_of_gt x.den_pos)

theorem pow2F_num_pos (e : Int) : 0 < (pow2F e).num := by
  unfold pow2F
  split
  · show (0 : Int) < 2 ^ e.toNat
    positivity
  · show (0 : Int) < 1
    norm_num

theorem rne_nonneg (r : Frac) (h : 0 ≤ r.num) : 0 ≤ rne r := by
  have hf : 0 ≤ Int.fdiv r.num r.den := Int.fdiv_nonneg h (le_of_lt r.den_pos)
  simp only [rne, Frac.floorF]
  split_ifs <;> omega

/-- Binary64 rounding preserves sign: a nonnegative value rounds to a
nonnegative value. -/
theorem fl64_nonneg (x : Frac) (h : 0 ≤ x.num) : 0 ≤ (fl64 x).num := by
  unfold fl64
  split_ifs with h0 hneg
  · norm_num [Frac.ofInt]
  · omega
  · simp only [Frac.mul, Frac.ofInt]
    refine mul_nonneg ?_ (le_of_lt (pow2F_num_pos _))
    refine rne_nonneg _ ?_
    simp only [Frac.mul]
    exact mul_nonneg (by positivity) (le_of_lt (pow2F_num_pos _))

/-- A quotient of a nonnegative value by a positive value is nonnegative. -/
theorem divF_nonneg (x y : Frac) (hx : 0 ≤ x.num) (hy : 0 < y.num) :
    0 ≤ (x.divF y).num := by
  unfold Frac.divF mkFrac
  rw [dif_pos (mul_pos x.den_pos hy)]
  exact mul_nonneg hx (le_of_lt y.den_pos)

/-- C1: the claim fails on the code.  The parser performs no validation of the
action value: the delimited message with action hold parses successfully
(returning action hold), and place_market_order then submits any non-buy
action as a sell market order.  This contradicts the docstring of
parse_message, which declares the returned action to be buy or sell. -/
theorem parse_message_accepts_unrecognized_action :
    (parse_message (Payload.text (pyStr "symbol: BTCUSD; action: hold; amount: 10"))).map
        (fun t => (t.symbol, t.action, Frac.beq t.amount (Frac.ofInt 10)))
      = some (PyVal.str (pyStr "BTCUSD"), pyStr "hold", true)
    ∧ (place_market_order (pyStr "XBTUSD") (pyStr "hold") (Frac.ofInt 1)).type
      = pyStr "sell" := by
  constructor
  · decide
  · decide

/-- C2 counterexample: contrary to the claim, a negative amount does not make
parsing fail: the delimited message with amount -5 parses successfully with
amount -5. -/
theorem parse_message_accepts_negative_amount :
    (parse_message (Payload.text (pyStr "symbol: BTCUSD; action: buy; amount: -5"))).map
        (fun t => (t.action, Frac.beq t.amount (Frac.ofInt (-5))))
      = some (pyStr "buy", true) := by
  decide

/-- C2 (amended): the parser checks the amount only for presence and
float-parsability, never for sign or positivity: a structured payload with
any numeric amount (including zero and negative values) parses successfully
and returns that amount unchanged; a delimited amount of 0 parses
successfully; only an amount that float() rejects makes parsing fail. -/
theorem parse_message_amount_only_float_checked :
    (∀ q : Frac,
      parse_message (Payload.dict (mkDict none (some (PyVal.str (pyStr "BTCUSD"))) none none
          (some (PyVal.str (pyStr "buy"))) (some (PyVal.num q))))
        = some ⟨PyVal.str (pyStr "BTCUSD"), pyStr "buy", q⟩)
    ∧ (parse_message (Payload.text (pyStr "symbol: BTCUSD; action: buy; amount: 0"))).map
        (fun t => Frac.beq t.amount (Frac.ofInt 0)) = some true
    ∧ parse_message (Payload.text (pyStr "symbol: BTCUSD; action: buy; amount: lots"))
        = none := by
  refine ⟨fun q => rfl, by decide, by decide⟩

/-- C2 witness: the amended statement applied at the concrete amount 3. -/
theorem parse_message_amount_witness :
    parse_message (Payload.dict (mkDict none (some (PyVal.str (pyStr "BTCUSD"))) none none
        (some (PyVal.str (pyStr "buy"))) (some (PyVal.num (Frac.ofInt 3)))))
      = some ⟨PyVal.str (pyStr "BTCUSD"), pyStr "buy", Frac.ofInt 3⟩ :=
  parse_message_amount_only_float_checked.1 (Frac.ofInt 3)

/-- C7 counterexample: the normalizer is not idempotent on every non-empty
input: for BBTCC the first pass produces BXBTC (the replacement creates a new
BTC occurrence across the boundary), and a second pass changes it again. -/
theorem normalize_pair_not_idempotent :
    normalize_pair (normalize_pair (pyStr "BBTCC")) ≠ normalize_pair (pyStr "BBTCC") := by
  decide

/-- C7 (amended): the normalizer is idempotent on every input whose normalized
form is nonempty and does not contain BTC as a substring (the replacement can
create a fresh BTC occurrence, and an input of only separators normalizes to
the empty string, which a second pass maps to DEFAULT_PAIR); the three example
spellings BTC-USD, btc_usd and BTC/USD all normalize to the same canonical
pair XBTUSD. -/
theorem normalize_pair_conditional_idempotent :
    (∀ x : List Nat, normalize_pair x ≠ [] → hasBTC (normalize_pair x) = false →
      normalize_pair (normalize_pair x) = normalize_pair x)
    ∧ normalize_pair (pyStr "BTC-USD") = pyStr "XBTUSD"
    ∧ normalize_pair (pyStr "btc_usd") = pyStr "XBTUSD"
    ∧ normalize_pair (pyStr "BTC/USD") = pyStr "XBTUSD" :=
  ⟨normalize_pair_idem, by decide, by decide, by decide⟩

/-- C7 witness: the conditional idempotency applied at BTC-USD. -/
theorem normalize_pair_conditional_idempotent_witness :
    normalize_pair (pyStr "BTC-USD") ≠ []
    ∧ hasBTC (normalize_pair (pyStr "BTC-USD")) = false
    ∧ normalize_pair (normalize_pair (pyStr "BTC-USD")) = normalize_pair (pyStr "BTC-USD") :=
  ⟨by decide, by decide, normalize_pair_conditional_idempotent.1 _ (by decide) (by decide)⟩

/-- C8 counterexample: contrary to the claim, the delimited shape does not
accept the ticker synonym: a delimited message supplying the symbol under the
key ticker, with valid action and amount, fails to parse (the delimited branch
reads only the keys symbol and pair). -/
theorem parse_message_delimited_ticker_rejected :
    parse_message (Payload.text (pyStr "ticker: BTCUSD; action: buy; amount: 10")) = none := by
  decide

/-- C8 (amended): the structured shape accepts the symbol under any of the
three keys symbol, ticker or pair, but the delimited shape accepts only
symbol and pair; a delimited payload using ticker fails. -/
theorem parse_message_symbol_synonyms :
    (∀ (s : List Nat) (q : Frac), s ≠ [] →
      parse_message (Payload.dict (mkDict none (some (PyVal.str s)) none none
          (some (PyVal.str (pyStr "buy"))) (some (PyVal.num q))))
        = some ⟨PyVal.str s, pyStr "buy", q⟩)
    ∧ (∀ (s : List Nat) (q : Frac), s ≠ [] →
      parse_message (Payload.dict (mkDict none none (some (PyVal.str s)) none
          (some (PyVal.str (pyStr "buy"))) (some (PyVal.num q))))
        = some ⟨PyVal.str s, pyStr "buy", q⟩)
    ∧ (∀ (s : List Nat) (q : Frac), s ≠ [] →
      parse_message (Payload.dict (mkDict none none none (some (PyVal.str s))
          (some (PyVal.str (pyStr "buy"))) (some (PyVal.num q))))
        = some ⟨PyVal.str s, pyStr "buy", q⟩)
    ∧ (parse_message (Payload.text (pyStr "symbol: ETHUSD; action: buy; amount: 10"))).map
        (fun t => t.symbol) = some (PyVal.str (pyStr "ETHUSD"))
    ∧ (parse_message (Payload.text (pyStr "pair: ETHUSD; action: buy; amount: 10"))).map
        (fun t => t.symbol) = some (PyVal.str (pyStr "ETHUSD"))
    ∧ parse_message (Payload.text (pyStr "ticker: ETHUSD; action: buy; amount: 10"))
        = none := by
  have hstep : ∀ s : List Nat, s ≠ [] →
      (PyVal.str s).truthy = true := by
    intro s hs
    cases s with
    | nil => exact absurd rfl hs
    | cons a t => rfl
  have hb : (PyVal.str (pyStr "buy")).truthy = true := by decide
  have hl : lowerStr (pyStr "buy") = pyStr "buy" := by decide
  refine ⟨?_, ?_, ?_, by decide, by decide, by decide⟩
  · intro s q hs
    simp [parse_message, directFields, mkDict, orPy, pyFloatOfVal, hstep s hs, hb, hl]
  · intro s q hs
    simp [parse_message, directFields, mkDict, orPy, pyFloatOfVal, hstep s hs, hb, hl]
  · intro s q hs
    simp [parse_message, directFields, mkDict, orPy, pyFloatOfVal, hstep s hs, hb, hl]

/-- C8 witness: the structured ticker synonym applied at a concrete symbol. -/
theorem parse_message_symbol_synonyms_witness :
    pyStr "ETHUSD" ≠ ([] : List Nat)
    ∧ parse_message (Payload.dict (mkDict none none (some (PyVal.str (pyStr "ETHUSD"))) none
        (some (PyVal.str (pyStr "buy"))) (some (PyVal.num (Frac.ofInt 5)))))
      = some ⟨PyVal.str (pyStr "ETHUSD"), pyStr "buy", Frac.ofInt 5⟩ :=
  ⟨by decide, parse_message_symbol_synonyms.2.1 _ _ (by decide)⟩

/-- C3: whenever the price fetch fails (the network call raised, the exchange
reported an error payload, or the result set is empty), the webhook handler
answers HTTP 500 with the price_fetch_failed body and issues no order
submission call: its call list is exactly the one ticker query. -/
theorem webhook_price_fetch_failure_no_order :
    (∀ (cfg : Config) (auth : List Nat) (payload : Payload) (pr : List Nat)
        (tickerResp : Option TickerResponse) (e : PriceErr)
        (orderResp : Except (List Nat) AddOrderResponse),
      authPasses cfg auth = true →
      (parse_message payload).map (fun t => normalizeVal t.symbol) = some (some pr) →
      get_last_price tickerResp = Except.error e →
      webhook cfg auth payload tickerResp orderResp
        = (⟨500, RespBody.priceFetchFailed e⟩, [ExchangeCall.tickerQuery pr])
      ∧ ∀ call ∈ (webhook cfg auth payload tickerResp orderResp).2,
          call.isOrder = false)
    ∧ get_last_price none = Except.error PriceErr.transport
    ∧ (∀ res : TickerResponse, res.error ≠ [] →
        get_last_price (some res) = Except.error (PriceErr.apiError res.error))
    ∧ (∀ res : TickerResponse, res.error = [] → res.result = [] →
        get_last_price (some res) = Except.error PriceErr.noResult) := by
  refine ⟨?_, rfl, ?_, ?_⟩
  · intro cfg auth payload pr tickerResp e orderResp h1 h2 h3
    cases hp : parse_message payload with
    | none => rw [hp] at h2; simp at h2
    | some t =>
      rw [hp] at h2
      have hn : normalizeVal t.symbol = some pr := by simpa using h2
      have hw : webhook cfg auth payload tickerResp orderResp
          = (⟨500, RespBody.priceFetchFailed e⟩, [ExchangeCall.tickerQuery pr]) := by
        unfold webhook
        rw [if_pos h1]
        unfold webhookAfterAuth
        simp only [hp, hn, h3]
      refine ⟨hw, ?_⟩
      rw [hw]
      intro call hc
      simp only [List.mem_singleton] at hc
      subst hc
      rfl
  · intro res hres
    have hie : res.error.isEmpty = false := by
      cases h : res.error with
      | nil => exact absurd h hres
      | cons a t => rfl
    simp [get_last_price, hie]
  · intro res h1 h2
    simp [get_last_price, h1, h2]

/-- C3 witness: the failure theorem applied at a transport failure of the
price fetch for a concrete buy alert. -/
theorem webhook_price_fetch_failure_witness :
    authPasses ⟨none⟩ [] = true
    ∧ (parse_message (Payload.text (pyStr "symbol: BTC-USD; action: buy; amount: 100"))).map
        (fun t => normalizeVal t.symbol) = some (some (pyStr "XBTUSD"))
    ∧ get_last_price none = Except.error PriceErr.transport
    ∧ webhook ⟨none⟩ [] (Payload.text (pyStr "symbol: BTC-USD; action: buy; amount: 100"))
        none (Except.ok ⟨[], []⟩)
      = (⟨500, RespBody.priceFetchFailed PriceErr.transport⟩,
         [ExchangeCall.tickerQuery (pyStr "XBTUSD")]) :=
  ⟨by decide, by decide, rfl,
   (webhook_price_fetch_failure_no_order.1 ⟨none⟩ []
      (Payload.text (pyStr "symbol: BTC-USD; action: buy; amount: 100")) (pyStr "XBTUSD")
      none PriceErr.transport (Except.ok ⟨[], []⟩) (by decide) (by decide) rfl).1⟩

/-- C4: with a configured token, any request whose Authorization header is not
exactly Bearer token is answered 401 unauthorized with no parsing and no
exchange call (the result does not depend on the payload at all); with no
token configured the check is skipped (the result does not depend on the
header). -/
theorem webhook_bearer_auth :
    (∀ (tok auth : List Nat) (payload : Payload) (tickerResp : Option TickerResponse)
        (orderResp : Except (List Nat) AddOrderResponse),
      auth ≠ bearerLine tok →
      webhook ⟨some tok⟩ auth payload tickerResp orderResp
        = (⟨401, RespBody.unauthorized⟩, []))
    ∧ (∀ (auth1 auth2 : List Nat) (payload : Payload) (tickerResp : Option TickerResponse)
        (orderResp : Except (List Nat) AddOrderResponse),
      webhook ⟨none⟩ auth1 payload tickerResp orderResp
        = webhook ⟨none⟩ auth2 payload tickerResp orderResp) := by
  constructor
  · intro tok auth payload tickerResp orderResp hne
    have hcond : authPasses ⟨some tok⟩ auth = false := by
      unfold authPasses
      simp [hne]
    unfold webhook
    rw [hcond]
    rfl
  · intro auth1 auth2 payload tickerResp orderResp
    rfl

/-- C4 witness: a wrong bearer token is rejected with 401 and no calls. -/
theorem webhook_bearer_auth_witness :
    pyStr "Bearer wrong" ≠ bearerLine (pyStr "s3cret")
    ∧ webhook ⟨some (pyStr "s3cret")⟩ (pyStr "Bearer wrong") Payload.other none
        (Except.ok ⟨[], []⟩)
      = (⟨401, RespBody.unauthorized⟩, []) :=
  ⟨by decide, webhook_bearer_auth.1 _ _ _ _ _ (by decide)⟩

/-- C5 counterexample: at the claim's own example (amount 10, price 3.0) the
volume submitted to the exchange is 3.33333332, not the exact-decimal 8-digit
truncation of 10/3 (which is 3.33333333): line 146 converts the quantized
Decimal back to a binary64 float, whose value lies just below 3.33333333, and
line 96 truncates again. -/
theorem webhook_volume_not_exact_decimal :
    (orderVolumes (webhook ⟨none⟩ []
        (Payload.text (pyStr "symbol: BTC-USD; action: buy; amount: 10"))
        (some ⟨[], [(pyStr "XXBTZUSD", ⟨[pyStr "3.0"]⟩)]⟩)
        (Except.ok ⟨[], []⟩)).2).map
      (fun v => (Frac.beq v ⟨333333332, 100000000, by omega⟩,
                 Frac.beq v (trunc8 (Frac.divF (Frac.ofInt 10) (Frac.ofInt 3)))))
      = [(true, false)]
    ∧ Frac.eq (trunc8 (Frac.divF (Frac.ofInt 10) (Frac.ofInt 3)))
        ⟨333333333, 100000000, by omega⟩ := by
  constructor
  · decide
  · decide

/-- C5 (amended): the volume is computed from the binary64 quotient, not with
exact decimal arithmetic: the ROUND_DOWN quantize of line 146 applied to the
float quotient of 10/3 does equal the exact truncation 3.33333333, but the
result is converted back to binary64 and re-truncated at line 96, so the
submitted volume for amount 10 and price 3.0 is 3.33333332, one decimal ulp
below the exact value; the quantize step itself never rounds up relative to
the binary64 quotient it is given. -/
theorem webhook_volume_float_truncation :
    Frac.eq (trunc8 (fl64 (Frac.divF (Frac.ofInt 10) (Frac.ofInt 3))))
      ⟨333333333, 100000000, by omega⟩
    ∧ Frac.eq (trunc8 (fl64 (trunc8 (fl64 (Frac.divF (Frac.ofInt 10) (Frac.ofInt 3))))))
      ⟨333333332, 100000000, by omega⟩
    ∧ (∀ a p : Frac, 0 ≤ a.num → 0 < p.num →
        Frac.le (trunc8 (fl64 (Frac.divF a p))) (fl64 (Frac.divF a p))) :=
  ⟨by decide, by decide,
   fun a p ha hp => trunc8_le _ (fl64_nonneg _ (divF_nonneg a p ha hp))⟩

/-- C5 witness: the never-rounds-up bound applied at amount 10, price 3. -/
theorem webhook_volume_float_truncation_witness :
    0 ≤ (Frac.ofInt 10).num ∧ 0 < (Frac.ofInt 3).num
    ∧ Frac.le (trunc8 (fl64 (Frac.divF (Frac.ofInt 10) (Frac.ofInt 3))))
        (fl64 (Frac.divF (Frac.ofInt 10) (Frac.ofInt 3))) :=
  ⟨by decide, by decide,
   webhook_volume_float_truncation.2.2 _ _ (by decide) (by decide)⟩

/-- C6 counterexample: contrary to the claim, a volume that truncates to zero
does not fail with InvalidVolume: for amount 1 at price 2 to the 30 the
computed volume truncates to 0 and the order is still submitted, with volume
0, and the request is answered 200 success. -/
theorem webhook_zero_volume_order_submitted :
    (webhook ⟨none⟩ [] (Payload.text (pyStr "symbol: BTC-USD; action: buy; amount: 1"))
        (some ⟨[], [(pyStr "XXBTZUSD", ⟨[pyStr "1073741824"]⟩)]⟩)
        (Except.ok ⟨[], []⟩)).1.status = 200
    ∧ (orderVolumes (webhook ⟨none⟩ []
        (Payload.text (pyStr "symbol: BTC-USD; action: buy; amount: 1"))
        (some ⟨[], [(pyStr "XXBTZUSD", ⟨[pyStr "1073741824"]⟩)]⟩)
        (Except.ok ⟨[], []⟩)).2).map (fun v => Frac.beq v (Frac.ofInt 0)) = [true] := by
  constructor
  · decide
  · decide

/-- C6 (amended): the handler performs no volume validation at all: a price of
exactly 0 makes the division raise an unhandled ZeroDivisionError (the
response is a generic 500 from the escaped exception, not an InvalidVolume
failure, and no order is submitted), and for any nonzero price the order is
submitted even when the computed volume truncates to zero. -/
theorem webhook_no_volume_validation :
    (∀ (cfg : Config) (auth : List Nat) (payload : Payload) (pr : List Nat)
        (tickerResp : Option TickerResponse) (price : Frac)
        (orderResp : Except (List Nat) AddOrderResponse),
      authPasses cfg auth = true →
      (parse_message payload).map (fun t => normalizeVal t.symbol) = some (some pr) →
      get_last_price tickerResp = Except.ok price →
      price.num = 0 →
      webhook cfg auth payload tickerResp orderResp
        = (⟨500, RespBody.pyException⟩, [ExchangeCall.tickerQuery pr]))
    ∧ (orderVolumes (webhook ⟨none⟩ []
        (Payload.text (pyStr "symbol: BTC-USD; action: buy; amount: 1"))
        (some ⟨[], [(pyStr "XXBTZUSD", ⟨[pyStr "1073741824"]⟩)]⟩)
        (Except.ok ⟨[], []⟩)).2).map (fun v => Frac.beq v (Frac.ofInt 0)) = [true] := by
  constructor
  · intro cfg auth payload pr tickerResp price orderResp h1 h2 h3 hz
    cases hp : parse_message payload with
    | none => rw [hp] at h2; simp at h2
    | some t =>
      rw [hp] at h2
      have hn : normalizeVal t.symbol = some pr := by simpa using h2
      unfold webhook
      rw [if_pos h1]
      unfold webhookAfterAuth
      simp only [hp, hn, h3]
      rw [if_pos hz]
  · decide

/-- C6 witness: the zero-price branch applied at a concrete alert with a
ticker response whose last price is 0. -/
theorem webhook_no_volume_validation_witness :
    (parse_message (Payload.text (pyStr "symbol: BTC-USD; action: buy; amount: 100"))).map
        (fun t => normalizeVal t.symbol) = some (some (pyStr "XBTUSD"))
    ∧ get_last_price (some ⟨[], [(pyStr "XXBTZUSD", ⟨[pyStr "0"]⟩)]⟩)
        = Except.ok (Frac.ofInt 0)
    ∧ webhook ⟨none⟩ [] (Payload.text (pyStr "symbol: BTC-USD; action: buy; amount: 100"))
        (some ⟨[], [(pyStr "XXBTZUSD", ⟨[pyStr "0"]⟩)]⟩) (Except.ok ⟨[], []⟩)
      = (⟨500, RespBody.pyException⟩, [ExchangeCall.tickerQuery (pyStr "XBTUSD")]) :=
  ⟨by decide, rfl,
   webhook_no_volume_validation.1 ⟨none⟩ []
     (Payload.text (pyStr "symbol: BTC-USD; action: buy; amount: 100")) (pyStr "XBTUSD")
     (some ⟨[], [(pyStr "XXBTZUSD", ⟨[pyStr "0"]⟩)]⟩) (Frac.ofInt 0) (Except.ok ⟨[], []⟩)
     (by decide) (by decide) rfl rfl⟩

/-- C9 (spec-modelled): a request arriving strictly within the cooldown window
after the last accepted request is answered with the rate-limited
acknowledgment (HTTP 200, status ignored, the remaining wait), no exchange
call of any kind is made, and the stored timestamp is unchanged. -/
theorem rate_limited_request_no_exchange_calls :
    ∀ (cooldown last now : Frac) (cfg : Config) (auth : List Nat) (payload : Payload)
      (tickerResp : Option TickerResponse) (orderResp : Except (List Nat) AddOrderResponse),
    Frac.lt (now.sub last) cooldown →
    rateLimitedWebhook cooldown last now cfg auth payload tickerResp orderResp
      = ((⟨200, RespBody.ignoredRateLimited (cooldown.sub (now.sub last))⟩, []), last) := by
  intro cooldown last now cfg auth payload tickerResp orderResp h
  unfold rateLimitedWebhook
  rw [if_pos h]

/-- C9 witness: a request 2 seconds after the last accepted one, with a 60
second cooldown, is acknowledged as rate limited with no calls. -/
theorem rate_limited_request_witness :
    Frac.lt ((Frac.ofInt 3).sub (Frac.ofInt 1)) (Frac.ofInt 60)
    ∧ rateLimitedWebhook (Frac.ofInt 60) (Frac.ofInt 1) (Frac.ofInt 3) ⟨none⟩ []
        Payload.other none (Except.ok ⟨[], []⟩)
      = ((⟨200, RespBody.ignoredRateLimited
            ((Frac.ofInt 60).sub ((Frac.ofInt 3).sub (Frac.ofInt 1)))⟩, []),
         Frac.ofInt 1) :=
  ⟨by decide, rate_limited_request_no_exchange_calls _ _ _ _ _ _ _ _ (by decide)⟩

/-- C10: a dict payload whose message field holds a nonempty string is parsed
through the delimited parser, whatever the direct fields hold (they are
ignored entirely: the result depends only on the message string); the direct
fields are consulted exactly when the message field is absent, an empty
string, or not a string. -/
theorem parse_message_message_field_precedence :
    (∀ (d : PyDict) (m : List Nat), d.message = some (PyVal.str m) → m ≠ [] →
      parse_message (Payload.dict d) = parseDelim m)
    ∧ (∀ d : PyDict, d.message = none →
      parse_message (Payload.dict d) = directFields d)
    ∧ (∀ d : PyDict, d.message = some (PyVal.str []) →
      parse_message (Payload.dict d) = directFields d)
    ∧ (∀ (d : PyDict) (q : Frac), d.message = some (PyVal.num q) →
      parse_message (Payload.dict d) = directFields d) := by
  refine ⟨?_, ?_, ?_, ?_⟩
  · intro d m hm hne
    have hie : m.isEmpty = false := by
      cases m with
      | nil => exact absurd rfl hne
      | cons a t => rfl
    simp [parse_message, hm, hie]
  · intro d hm
    simp [parse_message, hm]
  · intro d hm
    simp [parse_message, hm]
  · intro d q hm
    simp [parse_message, hm]

/-- C10 witness: a payload carrying both a message string and direct fields is
parsed from the message alone. -/
theorem parse_message_message_field_precedence_witness :
    (mkDict (some (PyVal.str (pyStr "symbol: ETHUSD; action: sell; amount: 7")))
        (some (PyVal.str (pyStr "BTCUSD"))) none none (some (PyVal.str (pyStr "buy")))
        (some (PyVal.num (Frac.ofInt 10)))).message
      = some (PyVal.str (pyStr "symbol: ETHUSD; action: sell; amount: 7"))
    ∧ pyStr "symbol: ETHUSD; action: sell; amount: 7" ≠ ([] : List Nat)
    ∧ parse_message (Payload.dict (mkDict
        (some (PyVal.str (pyStr "symbol: ETHUSD; action: sell; amount: 7")))
        (some (PyVal.str (pyStr "BTCUSD"))) none none (some (PyVal.str (pyStr "buy")))
        (some (PyVal.num (Frac.ofInt 10)))))
      = parseDelim (pyStr "symbol: ETHUSD; action: sell; amount: 7") :=
  ⟨rfl, by decide,
   parse_message_message_field_precedence.1 _ _ rfl (by decide)⟩
